import Mathlib

/-!
Verification development for the TGTON2Index TON deploy indexer.

The Go sources are shallowly embedded: Go byte strings become lists of byte
values, nilable pointers become Option, time.Now readings become explicit
parameters, and fallible calls return Except or Option. Every definition
mirrors the control flow of the function it is named after.
-/

set_option maxHeartbeats 1000000

/-- Go strings and byte slices, modelled as lists of byte values. -/
abbrev Bytes := List Nat

/-- Byte values of a Lean string literal; used to transcribe the string
constants appearing in the Go source (all of them ASCII). -/
def strBytes (s : String) : Bytes := s.toList.map Char.toNat

/-- ASCII lowercasing of a single byte, the action of strings.ToLower on the
ASCII code-hash strings handled by the detector. -/
def lowerByte (b : Nat) : Nat := if 65 ≤ b ∧ b ≤ 90 then b + 32 else b

/-- strings.ToLower over a byte string. -/
def lowerBytes (s : Bytes) : Bytes := s.map lowerByte

/-- Lowercase hex digit of a value below 16. -/
def hexDigit (n : Nat) : Nat := if n < 10 then 48 + n else 87 + n

/-- hex.EncodeToString: two lowercase hex digits per byte. -/
def hexEncode (bs : Bytes) : Bytes :=
  bs.foldr (fun b acc => hexDigit (b % 256 / 16) :: hexDigit (b % 16) :: acc) []

/-- A TON cell, abstracted to the byte string returned by Cell.Hash. -/
structure CellL where
  hashBytes : Bytes
deriving DecidableEq

/-- tlb.StateInit: the optional code and data cells. -/
structure StateInitL where
  code : Option CellL
  data : Option CellL
deriving DecidableEq

/-- The dynamic type of tx.IO.In.Msg as switched on by analyzeTransaction:
internal and inbound external messages carry an optional StateInit, and any
other message type falls into the default branch. -/
inductive MessageL where
  | internalMsg (si : Option StateInitL)
  | externalMsgIn (si : Option StateInitL)
  | otherMsg
deriving DecidableEq

/-- The state update hash pair carried by a transaction. -/
structure StateUpdateL where
  oldHash : Bytes
  newHash : Bytes
deriving DecidableEq

/-- The fields of tlb.Transaction read by the indexer. ioIn models tx.IO.In
(outer Option, the nil check on the In wrapper) and its Msg field (inner
Option); the state update is carried by every transaction but is never read
by analyzeTransaction. nowUnix is tx.Now. -/
structure TransactionL where
  ioIn : Option (Option MessageL)
  stateUpdate : StateUpdateL
  nowUnix : Nat
deriving DecidableEq

/-- Shared tail of analyzeTransaction: the StateInit nil check, the code nil
check, and the code-hash extraction (client.go lines 378 to 390). -/
def analyzeStateInit : Option StateInitL → Bool × Bytes
  | none => (false, [])
  | some s =>
    match s.code with
    | none => (false, [])
    | some c => (true, hexEncode c.hashBytes)

/-- analyzeTransaction (client.go lines 351 to 391): nil transaction, nil
tx.IO.In, nil Msg and non internal or external messages are rejected;
otherwise the optional StateInit of the in-message decides the result. -/
def analyzeTransaction : Option TransactionL → Bool × Bytes
  | none => (false, [])
  | some t =>
    match t.ioIn with
    | none => (false, [])
    | some none => (false, [])
    | some (some MessageL.otherMsg) => (false, [])
    | some (some (MessageL.internalMsg si)) => analyzeStateInit si
    | some (some (MessageL.externalMsgIn si)) => analyzeStateInit si

/-- The condition that actually decides the classifier: the in-message is
present, is internal or inbound external, and carries a StateInit whose code
cell is present. -/
def inMsgCarriesCode (t : TransactionL) : Bool :=
  match t.ioIn with
  | none => false
  | some none => false
  | some (some MessageL.otherMsg) => false
  | some (some (MessageL.internalMsg si)) =>
    match si with
    | none => false
    | some s => s.code.isSome
  | some (some (MessageL.externalMsgIn si)) =>
    match si with
    | none => false
    | some s => s.code.isSome

/-- A transaction whose state update leaves the account hash unchanged while
the incoming internal message carries a StateInit with a code cell. -/
def txSameHashDeploy : TransactionL :=
  { ioIn := some (some (MessageL.internalMsg
      (some { code := some { hashBytes := [0] }, data := none }))),
    stateUpdate := { oldHash := [0], newHash := [0] },
    nowUnix := 0 }

/-- C1 counterexample: the classifier reports is_deploy = true on a loaded
transaction whose state update has old_hash equal to new_hash, because
analyzeTransaction never consults the state update. -/
theorem c1_counterexample :
    (analyzeTransaction (some txSameHashDeploy)).1 = true ∧
    txSameHashDeploy.stateUpdate.oldHash = txSameHashDeploy.stateUpdate.newHash := by
  exact ⟨rfl, rfl⟩

/-- C1 (amended): the deployment classifier ignores the state update
entirely; replacing the state update of a transaction never changes the
classification, and is_deploy is true exactly when the incoming message
carries a StateInit whose code cell is present. -/
theorem c1_amended_thm (t : TransactionL) (u : StateUpdateL) :
    analyzeTransaction (some { t with stateUpdate := u }) =
      analyzeTransaction (some t) ∧
    ((analyzeTransaction (some t)).1 = true ↔ inMsgCarriesCode t = true) := by
  obtain ⟨io, su, now⟩ := t
  constructor
  · rfl
  · cases io with
    | none => simp [analyzeTransaction, inMsgCarriesCode]
    | some m =>
      cases m with
      | none => simp [analyzeTransaction, inMsgCarriesCode]
      | some msg =>
        cases msg with
        | otherMsg => simp [analyzeTransaction, inMsgCarriesCode]
        | internalMsg si =>
          cases si with
          | none => simp [analyzeTransaction, inMsgCarriesCode, analyzeStateInit]
          | some s =>
            cases h : s.code <;>
              simp [analyzeTransaction, inMsgCarriesCode, analyzeStateInit, h]
        | externalMsgIn si =>
          cases si with
          | none => simp [analyzeTransaction, inMsgCarriesCode, analyzeStateInit]
          | some s =>
            cases h : s.code <;>
              simp [analyzeTransaction, inMsgCarriesCode, analyzeStateInit, h]

/-- The result of one pass of the Subscribe polling loop body once a newer
head has been observed: the new stored last seqno, the seqnos attempted in
order, and those whose processing failed (they are only logged). -/
structure BatchResult where
  newLast : Nat
  attempted : List Nat
  failures : List Nat
deriving DecidableEq

/-- The body of the Subscribe loop (client.go lines 185 to 213): when the
observed head exceeds the stored last seqno, every seqno from last+1 to head
is processed in order, a processing failure is logged and the loop moves on,
and afterwards lastMC is assigned the observed head unconditionally. ok s
tells whether processing of seqno s succeeds. -/
def subscribeBatch (ok : Nat → Bool) (last head : Nat) : BatchResult :=
  if last < head then
    let seqnos := List.range' (last + 1) (head - last)
    { newLast := head,
      attempted := seqnos,
      failures := seqnos.filter (fun s => !(ok s)) }
  else
    { newLast := last, attempted := [], failures := [] }

/-- Modelled from the spec words of C2: the greatest seqno such that it and
all its predecessors in the batch were processed successfully. -/
def specLastProcessed (ok : Nat → Bool) (last head : Nat) : Nat :=
  last + ((List.range' (last + 1) (head - last)).takeWhile ok).length

/-- C2 counterexample: with stored last seqno 5 and head 6, processing of
seqno 6 fails, yet the loop stores 6 as the last processed seqno (the spec
value is 5), so the failed seqno is skipped rather than retried. -/
theorem c2_counterexample :
    (subscribeBatch (fun _ => false) 5 6).newLast = 6 ∧
    specLastProcessed (fun _ => false) 5 6 = 5 ∧
    (subscribeBatch (fun _ => false) 5 6).failures = [6] := by
  exact ⟨rfl, rfl, rfl⟩

/-- C2 (amended): after a batch in which a newer head was observed, the
stored last seqno equals the observed head regardless of which seqnos
failed; each seqno from last+1 to head is attempted exactly once, and a
failed seqno is merely recorded in the log, not retried. -/
theorem c2_amended_thm (ok : Nat → Bool) (last head : Nat) (h : last < head) :
    (subscribeBatch ok last head).newLast = head ∧
    (subscribeBatch ok last head).attempted = List.range' (last + 1) (head - last) ∧
    (subscribeBatch ok last head).failures =
      (List.range' (last + 1) (head - last)).filter (fun s => !(ok s)) := by
  simp [subscribeBatch, h]

/-- C2 witness: the amended theorem applied at last 5, head 7, with seqno 6
failing. -/
theorem c2_amended_witness :
    (subscribeBatch (fun s => !(s == 6)) 5 7).newLast = 7 ∧
    (subscribeBatch (fun s => !(s == 6)) 5 7).attempted = [6, 7] ∧
    (subscribeBatch (fun s => !(s == 6)) 5 7).failures = [6] := by
  have h := c2_amended_thm (fun s => !(s == 6)) 5 7 (by decide)
  exact ⟨h.1, h.2.1.trans (by decide), h.2.2.trans (by decide)⟩

/-- Nanoseconds in one hour (time.Hour). -/
def hourNs : Int := 3600000000000

/-- CatchupDuration (config.go lines 106 to 112): a non positive
catchup_hours falls back to the 24 hour default, otherwise the configured
number of hours. -/
def catchupDuration (catchupHours : Int) : Int :=
  if catchupHours ≤ 0 then 24 * hourNs else catchupHours * hourNs

/-- Repeated Subscribe iterations: starting from the head observed at start,
fold the batch body over the successive observed heads, collecting every
attempted seqno. -/
def subscribeRun (ok : Nat → Bool) (heads : List Nat) (start : Nat) :
    Nat × List Nat :=
  heads.foldl
    (fun st h =>
      let b := subscribeBatch ok st.1 h
      (b.newLast, st.2 ++ b.attempted))
    (start, [])

/-- C7 counterexample: at catchup_hours = 0 the derived catch-up window is
the 24 hour default, not the empty window the claim requires. -/
theorem c7_counterexample :
    catchupDuration 0 = 24 * hourNs ∧ catchupDuration 0 ≠ 0 := by
  exact ⟨rfl, by decide⟩

/-- Every seqno attempted during a subscribe run is above the start head,
and the stored seqno never drops below the start head. -/
theorem subscribeRun_above_start (ok : Nat → Bool) (heads : List Nat)
    (start : Nat) :
    start ≤ (subscribeRun ok heads start).1 ∧
    ∀ s ∈ (subscribeRun ok heads start).2, start < s := by
  suffices h : ∀ acc : Nat × List Nat, start ≤ acc.1 →
      (∀ s ∈ acc.2, start < s) →
      start ≤ (heads.foldl
        (fun st h => let b := subscribeBatch ok st.1 h
                     (b.newLast, st.2 ++ b.attempted)) acc).1 ∧
      ∀ s ∈ (heads.foldl
        (fun st h => let b := subscribeBatch ok st.1 h
                     (b.newLast, st.2 ++ b.attempted)) acc).2, start < s by
    exact h (start, []) le_rfl (by simp)
  induction heads with
  | nil => intro acc h1 h2; exact ⟨h1, h2⟩
  | cons hd tl ih =>
    intro acc h1 h2
    apply ih
    · by_cases hlt : acc.1 < hd
      · simpa [subscribeBatch, hlt] using le_of_lt (lt_of_le_of_lt h1 hlt)
      · simpa [subscribeBatch, hlt] using h1
    · intro s hs
      by_cases hlt : acc.1 < hd
      · simp only [subscribeBatch, hlt, if_pos, List.mem_append] at hs
        rcases hs with hs | hs
        · exact h2 s hs
        · rcases List.mem_range'_1.mp hs with ⟨hle, _⟩
          omega
      · simp [subscribeBatch, hlt] at hs
        exact h2 s hs

/-- C7 (amended): at catchup_hours = 0, CatchupDuration returns the 24 hour
default window rather than an empty one; independently, the realtime
subscription initializes its stored seqno to the head observed at start and
only ever attempts seqnos strictly greater than that head, so every emitted
event has seqno above the start head. -/
theorem c7_amended_thm (ok : Nat → Bool) (heads : List Nat) (start s : Nat)
    (hs : s ∈ (subscribeRun ok heads start).2) :
    catchupDuration 0 = 24 * hourNs ∧ start < s := by
  exact ⟨rfl, (subscribeRun_above_start ok heads start).2 s hs⟩

/-- C7 witness: with start head 5 and a single observed head 7, seqno 6 is
attempted and is strictly above the start head. -/
theorem c7_amended_witness :
    catchupDuration 0 = 24 * hourNs ∧ 5 < 6 := by
  exact c7_amended_thm (fun _ => true) [7] 5 6 (by decide)

/-- Insertion into an ascending member list: the effect of ZAddNX on the
score-ordered seqno set when the member is absent (score and member are both
the seqno, so the set is exactly an ascending list). -/
def insertSorted (n : Nat) : List Nat → List Nat
  | [] => [n]
  | x :: xs => if n ≤ x then n :: x :: xs else x :: insertSorted n xs

/-- trimSeqno (redis_cache.go lines 97 to 108): when the cardinality exceeds
the window, remove the lowest-ranked extra members (ZRemRangeByRank from
rank 0 to extra-1). -/
def trimSeqnoL (w : Nat) (s : List Nat) : List Nat :=
  if s.length ≤ w then s else s.drop (s.length - w)

/-- RegisterSeqno (redis_cache.go lines 60 to 79): seqno 0 reports new
without touching the set; an already present member reports not new;
otherwise the member is added and the set trimmed. -/
def registerSeqnoL (w : Nat) (s : List Nat) (n : Nat) : Bool × List Nat :=
  if n = 0 then (true, s)
  else if n ∈ s then (false, s)
  else (true, trimSeqnoL w (insertSorted n s))

/-- The cache state reached from the empty set by a sequence of
RegisterSeqno calls. -/
def applySeqnos (w : Nat) (ns : List Nat) : List Nat :=
  ns.foldl (fun s n => (registerSeqnoL w s n).2) []

/-- Window selection in NewRedisCache (redis_cache.go lines 39 to 42): a
positive configured size is used, otherwise the default window 1000. -/
def seqnoWindowOf (cfgSize : Int) : Nat :=
  if 0 < cfgSize then cfgSize.toNat else 1000

theorem insertSorted_length (n : Nat) (s : List Nat) :
    (insertSorted n s).length = s.length + 1 := by
  induction s with
  | nil => rfl
  | cons x xs ih =>
    by_cases h : n ≤ x <;> simp [insertSorted, h, ih]

theorem trimSeqnoL_length (w : Nat) (l : List Nat) :
    (trimSeqnoL w l).length = min l.length w := by
  by_cases h : l.length ≤ w
  · simp [trimSeqnoL, h, Nat.min_eq_left h]
  · simp only [trimSeqnoL, if_neg h, List.length_drop]
    omega

theorem registerSeqnoL_length (w : Nat) (s : List Nat) (n : Nat)
    (h : s.length ≤ w) : ((registerSeqnoL w s n).2).length ≤ w := by
  unfold registerSeqnoL
  by_cases h0 : n = 0
  · simpa [h0] using h
  · by_cases hm : n ∈ s
    · simpa [h0, hm] using h
    · simp only [h0, hm, if_neg, if_false]
      rw [trimSeqnoL_length]
      exact min_le_right _ _

/-- C6: every RegisterSeqno call that inserts a new seqno afterwards trims
the ordered set to the window by evicting lowest-ranked members (the result
is a suffix of the post-insert ascending list, of length min(card, W)), a
call on a state within the window leaves the state within the window, every
state reachable from the empty set has cardinality at most W, and an
unconfigured window defaults to 1000. -/
theorem c6_thm (w : Nat) :
    (∀ ns, (applySeqnos w ns).length ≤ w) ∧
    (∀ s n, s.length ≤ w → ((registerSeqnoL w s n).2).length ≤ w) ∧
    (∀ s n, n ≠ 0 → n ∉ s →
      (registerSeqnoL w s n).2 = trimSeqnoL w (insertSorted n s)) ∧
    (∀ l, List.IsSuffix (trimSeqnoL w l) l ∧
      (trimSeqnoL w l).length = min l.length w) ∧
    seqnoWindowOf 0 = 1000 := by
  refine ⟨?_, registerSeqnoL_length w, ?_, ?_, rfl⟩
  · intro ns
    suffices h : ∀ s : List Nat, s.length ≤ w →
        (ns.foldl (fun s n => (registerSeqnoL w s n).2) s).length ≤ w by
      exact h [] (by simp)
    induction ns with
    | nil => intro s hs; exact hs
    | cons n tl ih =>
      intro s hs
      exact ih _ (registerSeqnoL_length w s n hs)
  · intro s n h0 hm
    simp [registerSeqnoL, h0, hm]
  · intro l
    constructor
    · unfold trimSeqnoL
      by_cases h : l.length ≤ w
      · simp [h]
      · simp only [if_neg h]
        exact List.drop_suffix _ _
    · exact trimSeqnoL_length w l

/-- C6 witness: with window 2, the state reached by registering 1, 2, 3 has
at most 2 members, and registering 3 into the full state keeps the bound. -/
theorem c6_witness :
    (applySeqnos 2 [1, 2, 3]).length ≤ 2 ∧
    ((registerSeqnoL 2 [1, 2] 3).2).length ≤ 2 ∧
    (registerSeqnoL 2 [1, 2] 3).2 = trimSeqnoL 2 (insertSorted 3 [1, 2]) := by
  exact ⟨(c6_thm 2).1 [1, 2, 3], (c6_thm 2).2.1 [1, 2] 3 (by decide),
    (c6_thm 2).2.2.1 [1, 2] 3 (by decide) (by decide)⟩

/-- Go map lookup m[k] over the code-hash registry. -/
def mapLookup (m : List (Bytes × Bytes)) (k : Bytes) : Option Bytes :=
  (m.find? (fun p => p.1 == k)).map (fun p => p.2)

/-- Go map assignment m[k] = v: replaces any existing binding for k. -/
def mapInsert (m : List (Bytes × Bytes)) (k v : Bytes) : List (Bytes × Bytes) :=
  m.filter (fun p => !(p.1 == k)) ++ [(k, v)]

/-- defaultCodeHashes (detector.go lines 308 to 339): the static seed list
of known code fingerprints compiled into the binary. -/
def defaultCodeHashes : List (Bytes × Bytes) :=
  [ (strBytes ("b5ee9c7241010101001000"), strBytes ("Official Jetton Minter (short)")),
    (strBytes ("stonfi_jetton_minter_v1"), strBytes ("Stonfi Jetton v1")),
    (strBytes ("stonfi_jetton_minter_v2"), strBytes ("Stonfi Jetton v2")),
    (strBytes ("dedust_jetton_minter"), strBytes ("DeDust Jetton")),
    (strBytes ("usdt_ton_minter"), strBytes ("USDT Minter")),
    (strBytes ("notcoin_minter"), strBytes ("Notcoin Minter")) ]

/-- NewDetector seeding (detector.go lines 52 to 63): every seed key is
lowercased before insertion. -/
def newDetectorHashes : List (Bytes × Bytes) :=
  defaultCodeHashes.foldl (fun m p => mapInsert m (lowerBytes p.1) p.2) []

/-- IsKnownCodeHash (detector.go lines 66 to 69): membership of the
lowercased fingerprint. -/
def IsKnownCodeHash (m : List (Bytes × Bytes)) (codeHash : Bytes) : Bool :=
  (mapLookup m (lowerBytes codeHash)).isSome

/-- GetMinterType (detector.go lines 72 to 77): label of the lowercased
fingerprint, or the string Unknown. -/
def GetMinterType (m : List (Bytes × Bytes)) (codeHash : Bytes) : Bytes :=
  (mapLookup m (lowerBytes codeHash)).getD (strBytes ("Unknown"))

/-- The map effect of AddCodeHash (detector.go line 343): insertion under
the lowercased key. -/
def addCodeHashMap (m : List (Bytes × Bytes)) (h desc : Bytes) :
    List (Bytes × Bytes) :=
  mapInsert m (lowerBytes h) desc

/-- LoadRealCodeHashes (detector.go lines 361 to 370): in this revision the
body only logs the registry size; the map is untouched. -/
def loadRealCodeHashes (m : List (Bytes × Bytes)) : List (Bytes × Bytes) := m

/-- Runtime registry operations reachable after construction. -/
inductive RegOp where
  | addOp (h desc : Bytes)
  | loadOp
deriving DecidableEq

/-- The registry state reached from NewDetector seeding by a sequence of
AddCodeHash and LoadRealCodeHashes calls. -/
def applyRegOps (ops : List RegOp) : List (Bytes × Bytes) :=
  ops.foldl
    (fun m op =>
      match op with
      | RegOp.addOp h desc => addCodeHashMap m h desc
      | RegOp.loadOp => loadRealCodeHashes m)
    newDetectorHashes

/-- All stored registry keys are lowercase. -/
def allKeysLower (m : List (Bytes × Bytes)) : Prop :=
  ∀ p ∈ m, lowerBytes p.1 = p.1

instance (m : List (Bytes × Bytes)) : Decidable (allKeysLower m) :=
  inferInstanceAs (Decidable (∀ p ∈ m, lowerBytes p.1 = p.1))

theorem lowerByte_idem (b : Nat) : lowerByte (lowerByte b) = lowerByte b := by
  unfold lowerByte
  by_cases h : 65 ≤ b ∧ b ≤ 90
  · rw [if_pos h, if_neg (by omega)]
  · rw [if_neg h, if_neg h]

theorem lowerBytes_idem (s : Bytes) : lowerBytes (lowerBytes s) = lowerBytes s := by
  induction s with
  | nil => rfl
  | cons b bs ih =>
    simp only [lowerBytes, List.map_cons] at ih ⊢
    rw [lowerByte_idem]
    exact congrArg _ ih

theorem mapInsert_keysLower (m : List (Bytes × Bytes)) (h v : Bytes)
    (hm : allKeysLower m) : allKeysLower (mapInsert m (lowerBytes h) v) := by
  intro p hp
  simp only [mapInsert, List.mem_append, List.mem_filter, List.mem_singleton] at hp
  rcases hp with ⟨hp, _⟩ | hp
  · exact hm p hp
  · rw [hp]
    exact lowerBytes_idem h

theorem newDetectorHashes_keysLower : allKeysLower newDetectorHashes := by
  decide

/-- C9: the registry lowercases fingerprints on every operation — every
state reachable from NewDetector seeding through AddCodeHash and
LoadRealCodeHashes has only lowercase keys, lookups are insensitive to the
case of the queried fingerprint, and LoadRealCodeHashes in this revision
leaves the map unchanged. -/
theorem c9_thm :
    (∀ ops, allKeysLower (applyRegOps ops)) ∧
    (∀ m h, IsKnownCodeHash m h = IsKnownCodeHash m (lowerBytes h) ∧
      GetMinterType m h = GetMinterType m (lowerBytes h)) ∧
    (∀ m, loadRealCodeHashes m = m) := by
  refine ⟨?_, ?_, fun _ => rfl⟩
  · intro ops
    suffices hstep : ∀ m : List (Bytes × Bytes), allKeysLower m →
        allKeysLower (ops.foldl
          (fun m op =>
            match op with
            | RegOp.addOp h desc => addCodeHashMap m h desc
            | RegOp.loadOp => loadRealCodeHashes m) m) by
      exact hstep newDetectorHashes newDetectorHashes_keysLower
    induction ops with
    | nil => intro m hm; exact hm
    | cons op tl ih =>
      intro m hm
      cases op with
      | addOp h desc => exact ih _ (mapInsert_keysLower m h desc hm)
      | loadOp => exact ih _ hm
  · intro m h
    constructor
    · unfold IsKnownCodeHash
      rw [lowerBytes_idem]
    · unfold GetMinterType
      rw [lowerBytes_idem]

/-- C9 witness: the invariant and the case-insensitivity at concrete
inputs — one runtime insertion with a mixed-case key, and a mixed-case
lookup of a seeded fingerprint. -/
theorem c9_witness :
    allKeysLower (applyRegOps [RegOp.addOp (strBytes ("AbCdEf")) (strBytes ("d"))]) ∧
    IsKnownCodeHash newDetectorHashes (strBytes ("USDT_TON_MINTER")) =
      IsKnownCodeHash newDetectorHashes (lowerBytes (strBytes ("USDT_TON_MINTER"))) := by
  exact ⟨c9_thm.1 [RegOp.addOp (strBytes ("AbCdEf")) (strBytes ("d"))],
    (c9_thm.2.1 newDetectorHashes (strBytes ("USDT_TON_MINTER"))).1⟩

/-- Go string slicing s[:n]: out of range (a panic) when n exceeds the
length. -/
def goSliceTo (s : Bytes) (n : Nat) : Option Bytes :=
  if n ≤ s.length then some (s.take n) else none

/-- AddCodeHash (detector.go lines 342 to 348): the map insertion under the
lowercased key happens on line 343; the log call on line 344 then slices
hash[:16], which panics when the fingerprint has fewer than 16 bytes. none
models the panic; otherwise the new map and the logged prefix are returned. -/
def addCodeHash (m : List (Bytes × Bytes)) (h desc : Bytes) :
    Option (List (Bytes × Bytes) × Bytes) :=
  let m2 := addCodeHashMap m h desc
  match goSliceTo h 16 with
  | none => none
  | some pre => some (m2, pre ++ strBytes ("..."))

theorem mapLookup_mapInsert (m : List (Bytes × Bytes)) (k v : Bytes) :
    mapLookup (mapInsert m k v) k = some v := by
  unfold mapLookup mapInsert
  induction m with
  | nil => simp
  | cons p tl ih =>
    by_cases hp : (p.1 == k) = true
    · simp [List.filter_cons, hp]
    · simp [List.filter_cons, hp, List.find?]

/-- C10: AddCodeHash slices the fingerprint to its first 16 bytes for the
log line, so any fingerprint shorter than 16 bytes makes the call panic,
although the registry map insertion itself (which has already happened)
accepts fingerprints of any length — the inserted binding is found under
the lowercased key. -/
theorem c10_thm (m : List (Bytes × Bytes)) (h desc : Bytes) :
    (h.length < 16 → addCodeHash m h desc = none) ∧
    (16 ≤ h.length → addCodeHash m h desc =
      some (addCodeHashMap m h desc, h.take 16 ++ strBytes ("..."))) ∧
    mapLookup (addCodeHashMap m h desc) (lowerBytes h) = some desc := by
  refine ⟨?_, ?_, mapLookup_mapInsert m (lowerBytes h) desc⟩
  · intro hlt
    simp [addCodeHash, goSliceTo, Nat.not_le.mpr hlt]
  · intro hge
    simp [addCodeHash, goSliceTo, hge]

/-- C10 witness: a 3-byte fingerprint panics in the logging slice, while the
map insertion for the same fingerprint is well defined and retrievable. -/
theorem c10_witness :
    addCodeHash [] (strBytes ("abc")) (strBytes ("d")) = none ∧
    mapLookup (addCodeHashMap [] (strBytes ("abc")) (strBytes ("d")))
      (lowerBytes (strBytes ("abc"))) = some (strBytes ("d")) := by
  exact ⟨(c10_thm [] (strBytes ("abc")) (strBytes ("d"))).1 (by decide),
    (c10_thm [] (strBytes ("abc")) (strBytes ("d"))).2.2⟩

/-- Bytes that strings.TrimSpace strips (ASCII whitespace). -/
def isSpaceByte (b : Nat) : Bool :=
  b == 32 || b == 9 || b == 10 || b == 11 || b == 12 || b == 13

/-- strings.TrimSpace over a byte string. -/
def trimSpace (s : Bytes) : Bytes :=
  ((s.dropWhile isSpaceByte).reverse.dropWhile isSpaceByte).reverse

/-- Whether sub is a prefix of s (byte-wise). -/
def startsWithB : Bytes → Bytes → Bool
  | _, [] => true
  | [], _ :: _ => false
  | x :: xs, y :: ys => x == y && startsWithB xs ys

/-- Helper for strings.Index: first position at or after i where sub starts. -/
def indexOfAux : Bytes → Bytes → Nat → Option Nat
  | [], sub, i => if sub.isEmpty then some i else none
  | x :: rest, sub, i =>
    if startsWithB (x :: rest) sub then some i else indexOfAux rest sub (i + 1)

/-- strings.Index: byte index of the first occurrence of sub in s, none when
absent (Go returns -1). -/
def indexOfSub (s sub : Bytes) : Option Nat := indexOfAux s sub 0

/-- bytesToBigIntString (detector.go lines 210 to 217). -/
def bytesToBigIntString (b : Bytes) : Bytes :=
  if b.length = 0 then strBytes ("0") else b

/-- isZeroBytes (detector.go lines 220 to 227). -/
def isZeroBytes (b : Bytes) : Bool := b.all (fun v => v == 0)

/-- parseAddressFromBytes (detector.go lines 230 to 236). -/
def parseAddressFromBytes (b : Bytes) : Bytes :=
  if b.length = 0 then [] else b

/-- extractContentURI (detector.go lines 239 to 253): prefix byte 0x01 marks
an off-chain URI, returned trimmed; anything else yields the empty string. -/
def extractContentURI (b : Bytes) : Bytes :=
  if b.length = 0 then []
  else if 1 < b.length ∧ b.headD 0 = 1 then trimSpace (b.drop 1)
  else []

/-- extractValue (detector.go lines 277 to 304): value after the first
colon, unquoted if surrounded by double quotes with a closing quote, else up
to the first comma or closing brace, trimmed. The field-name argument is
accepted and unused, as in the source. -/
def extractValue (s _fieldArg : Bytes) : Bytes :=
  match indexOfSub s [58] with
  | none => []
  | some start =>
    let rest := trimSpace (s.drop (start + 1))
    if rest.length = 0 then []
    else
      let quoted : Option Bytes :=
        if rest.headD 0 = 34 then
          match indexOfSub (rest.drop 1) [34] with
          | some e => some ((rest.drop 1).take e)
          | none => none
        else none
      match quoted with
      | some v => v
      | none =>
        let e := (rest.findIdx? (fun b => b == 44 || b == 125)).getD rest.length
        trimSpace (rest.take e)

/-- parseJettonContent (detector.go lines 256 to 274): best-effort name and
symbol search; the decimals component of the returned triple is the literal
9 on every path of the function. -/
def parseJettonContent (b : Bytes) : Bytes × Bytes × Int :=
  if b.length = 0 then ([], [], 9)
  else
    let content := b
    let name :=
      match indexOfSub content (strBytes ("name")) with
      | some idx => extractValue (content.drop idx) (strBytes ("name"))
      | none => []
    let symbol :=
      match indexOfSub content (strBytes ("symbol")) with
      | some idx => extractValue (content.drop idx) (strBytes ("symbol"))
      | none => []
    (name, symbol, 9)

/-- The JettonData record filled by verifyJettonInterface; Go zero values
are the empty string, false and 0. -/
structure JettonDataL where
  totalSupply : Bytes
  mintable : Bool
  adminAddr : Bytes
  contentURI : Bytes
  name : Bytes
  symbol : Bytes
  decimals : Int
deriving DecidableEq

/-- verifyJettonInterface (detector.go lines 144 to 207): a failed call or a
result of fewer than four stack items is unverified; otherwise each field of
the JettonData is assigned under the guard the source puts around its
assignment (an unassigned field keeps its Go zero value). runRes is the
outcome of RunGetMethod, none on error. -/
def verifyJettonInterface (runRes : Option (List Bytes)) :
    Bool × Option JettonDataL :=
  match runRes with
  | none => (false, none)
  | some result =>
    if result.length < 4 then (false, none)
    else
      let r0 := result.getD 0 []
      let r1 := result.getD 1 []
      let r2 := result.getD 2 []
      let r3 := result.getD 3 []
      let d : JettonDataL :=
        { totalSupply := if 0 < r0.length then bytesToBigIntString r0 else [],
          mintable :=
            if 1 < result.length ∧ 0 < r1.length then !(isZeroBytes r1) else false,
          adminAddr :=
            if 2 < result.length ∧ 0 < r2.length then parseAddressFromBytes r2 else [],
          contentURI :=
            if 3 < result.length ∧ 0 < r3.length then extractContentURI r3 else [],
          name :=
            if 3 < result.length ∧ 0 < r3.length then (parseJettonContent r3).1 else [],
          symbol :=
            if 3 < result.length ∧ 0 < r3.length then (parseJettonContent r3).2.1 else [],
          decimals :=
            if 3 < result.length ∧ 0 < r3.length then (parseJettonContent r3).2.2 else 0 }
      (true, some d)

/-- The Metadata record built by VerifyAndInspect. Go zero values stand for
the unassigned fields; timestamp and latency are explicit inputs standing
for the time.Now readings. -/
structure MetadataL where
  address : Bytes
  codeHash : Bytes
  name : Bytes
  symbol : Bytes
  decimals : Int
  totalSupply : Bytes
  contentURI : Bytes
  adminAddr : Bytes
  mintable : Bool
  timestamp : Nat
  minterType : Bytes
  verifiedByInterface : Bool
  knownCodeHash : Bool
  detectionLatencyMs : Int
deriving DecidableEq

/-- The detector state: the code-hash registry and whether a fetcher was
supplied (d.fetcher != nil). -/
structure DetectorState where
  codeHashes : List (Bytes × Bytes)
  fetcherPresent : Bool
deriving DecidableEq

/-- VerifyAndInspect (detector.go lines 82 to 129): initialize the metadata
from the registry, probe the interface when a fetcher is present, copy the
parsed jetton data on success, relabel an unknown but interface-verified
minter, and return the sentinel error exactly when the fingerprint is
unknown and the interface unverified. -/
def VerifyAndInspect (st : DetectorState) (runRes : Option (List Bytes))
    (nowUtc : Nat) (elapsedMs : Int) (addr codeHash : Bytes) :
    Except Unit MetadataL :=
  let codeHashLower := lowerBytes codeHash
  let meta0 : MetadataL :=
    { address := addr, codeHash := codeHashLower, name := [], symbol := [],
      decimals := 0, totalSupply := [], contentURI := [], adminAddr := [],
      mintable := false, timestamp := nowUtc,
      minterType := GetMinterType st.codeHashes codeHashLower,
      verifiedByInterface := false,
      knownCodeHash := IsKnownCodeHash st.codeHashes codeHashLower,
      detectionLatencyMs := 0 }
  let meta1 :=
    if st.fetcherPresent then
      let vr := verifyJettonInterface runRes
      let m := { meta0 with verifiedByInterface := vr.1 }
      if vr.1 then
        let m2 :=
          match vr.2 with
          | some d =>
            { m with
              totalSupply := d.totalSupply
              mintable := d.mintable
              adminAddr := d.adminAddr
              contentURI := d.contentURI
              name := d.name
              symbol := d.symbol
              decimals := d.decimals }
          | none => m
        if !m2.knownCodeHash then
          { m2 with minterType := strBytes ("Interface-Verified (Unknown Code)") }
        else m2
      else m
    else meta0
  if !meta1.knownCodeHash && !meta1.verifiedByInterface then Except.error ()
  else Except.ok { meta1 with detectionLatencyMs := elapsedMs }

/-- Whether the interface probe counts as verified for a given detector
state: a fetcher is present and the probe succeeded. -/
def interfaceVerifiedOf (st : DetectorState) (runRes : Option (List Bytes)) :
    Bool :=
  st.fetcherPresent && (verifyJettonInterface runRes).1

/-- Whether a VerifyAndInspect result is the sentinel error. -/
def exceptIsErr : Except Unit MetadataL → Bool
  | Except.error _ => true
  | Except.ok _ => false

theorem isKnown_lower (m : List (Bytes × Bytes)) (h : Bytes) :
    IsKnownCodeHash m (lowerBytes h) = IsKnownCodeHash m h := by
  unfold IsKnownCodeHash
  rw [lowerBytes_idem]

theorem verifyAndInspect_isErr (st : DetectorState) (runRes : Option (List Bytes))
    (nowUtc : Nat) (elapsedMs : Int) (addr codeHash : Bytes) :
    exceptIsErr (VerifyAndInspect st runRes nowUtc elapsedMs addr codeHash) =
      (!(IsKnownCodeHash st.codeHashes (lowerBytes codeHash)) &&
        !(interfaceVerifiedOf st runRes)) := by
  cases hf : st.fetcherPresent <;>
    cases hv : (verifyJettonInterface runRes).1 <;>
      cases hd : (verifyJettonInterface runRes).2 <;>
        cases hkb : IsKnownCodeHash st.codeHashes (lowerBytes codeHash) <;>
          simp [VerifyAndInspect, exceptIsErr, interfaceVerifiedOf, hf, hv, hd, hkb]

theorem verifyAndInspect_ok_flags (st : DetectorState)
    (runRes : Option (List Bytes)) (nowUtc : Nat) (elapsedMs : Int)
    (addr codeHash : Bytes) (m : MetadataL)
    (hm : VerifyAndInspect st runRes nowUtc elapsedMs addr codeHash = Except.ok m) :
    m.knownCodeHash = IsKnownCodeHash st.codeHashes (lowerBytes codeHash) ∧
    m.verifiedByInterface = interfaceVerifiedOf st runRes := by
  cases hf : st.fetcherPresent <;>
    cases hv : (verifyJettonInterface runRes).1 <;>
      cases hd : (verifyJettonInterface runRes).2 <;>
        cases hkb : IsKnownCodeHash st.codeHashes (lowerBytes codeHash) <;>
          simp [VerifyAndInspect, hf, hv, hd, hkb] at hm <;>
            simp [← hm, interfaceVerifiedOf, hf, hv, hkb]

/-- C4: VerifyAndInspect returns the sentinel not-a-minter error exactly
when the code fingerprint is not in the registry and the interface probe did
not verify; consequently every metadata it returns without error has
knownCodeHash or verifiedByInterface set. -/
theorem c4_thm (st : DetectorState) (runRes : Option (List Bytes))
    (nowUtc : Nat) (elapsedMs : Int) (addr codeHash : Bytes) :
    (exceptIsErr (VerifyAndInspect st runRes nowUtc elapsedMs addr codeHash) = true ↔
      (IsKnownCodeHash st.codeHashes codeHash = false ∧
        interfaceVerifiedOf st runRes = false)) ∧
    (∀ m, VerifyAndInspect st runRes nowUtc elapsedMs addr codeHash = Except.ok m →
      m.knownCodeHash = true ∨ m.verifiedByInterface = true) := by
  constructor
  · rw [verifyAndInspect_isErr, ← isKnown_lower st.codeHashes codeHash]
    cases IsKnownCodeHash st.codeHashes (lowerBytes codeHash) <;>
      cases interfaceVerifiedOf st runRes <;> simp
  · intro m hm
    obtain ⟨h1, h2⟩ :=
      verifyAndInspect_ok_flags st runRes nowUtc elapsedMs addr codeHash m hm
    have herr : exceptIsErr (VerifyAndInspect st runRes nowUtc elapsedMs addr codeHash) = false := by
      rw [hm]; rfl
    rw [verifyAndInspect_isErr] at herr
    rw [h1, h2]
    cases hkb : IsKnownCodeHash st.codeHashes (lowerBytes codeHash) <;>
      cases hvv : interfaceVerifiedOf st runRes <;>
        simp [hkb, hvv] at herr ⊢

/-- The detector state used by the C4 witness: the seeded registry, no
fetcher supplied. -/
def st4 : DetectorState :=
  { codeHashes := newDetectorHashes, fetcherPresent := false }

/-- The metadata VerifyAndInspect produces in the C4 witness scenario. -/
def okMeta4 : MetadataL :=
  { address := [], codeHash := lowerBytes (strBytes ("usdt_ton_minter")),
    name := [], symbol := [], decimals := 0, totalSupply := [],
    contentURI := [], adminAddr := [], mintable := false, timestamp := 0,
    minterType := GetMinterType newDetectorHashes (lowerBytes (strBytes ("usdt_ton_minter"))),
    verifiedByInterface := false,
    knownCodeHash := IsKnownCodeHash newDetectorHashes (lowerBytes (strBytes ("usdt_ton_minter"))),
    detectionLatencyMs := 0 }

/-- C4 witness: for a seeded fingerprint without a fetcher, VerifyAndInspect
returns metadata, and the theorem yields its flag disjunction. -/
theorem c4_witness :
    okMeta4.knownCodeHash = true ∨ okMeta4.verifiedByInterface = true := by
  exact (c4_thm st4 none 0 0 [] (strBytes ("usdt_ton_minter"))).2 okMeta4 (by rfl)

/-- The decimals carried by a verifyJettonInterface result; 0 (the Go zero
value) when no jetton data record was produced. -/
def jdDecimals (p : Bool × Option JettonDataL) : Int :=
  match p.2 with
  | some d => d.decimals
  | none => 0

/-- The Decimals field of a VerifyAndInspect result, or -1 on the sentinel
error. -/
def decimalsOfRes : Except Unit MetadataL → Int
  | Except.ok m => m.decimals
  | Except.error _ => -1

/-- The detector state used in the C8 scenarios: seeded registry, fetcher
present. -/
def st8 : DetectorState :=
  { codeHashes := newDetectorHashes, fetcherPresent := true }

theorem parseJettonContent_decimals (b : Bytes) :
    (parseJettonContent b).2.2 = 9 := by
  unfold parseJettonContent
  by_cases h : b.length = 0 <;> simp [h]

/-- C8 counterexample: a verified probe whose content cell is empty leaves
Decimals at the Go zero value 0, not at the default 9 the claim requires for
a missing or empty content cell. -/
theorem c8_counterexample :
    (verifyJettonInterface (some [[1], [1], [1], []])).1 = true ∧
    decimalsOfRes (VerifyAndInspect st8 (some [[1], [1], [1], []]) 0 0 []
      (strBytes ("usdt_ton_minter"))) = 0 := by
  exact ⟨rfl, rfl⟩

/-- C8 (amended): parseJettonContent returns decimals 9 on every path, so a
content cell that is present and non-empty yields Decimals 9 even when the
decimals field cannot be parsed, and unparsed name and symbol are left
empty; but a content cell that is missing or empty never reaches the parser,
leaving Decimals at the Go zero value 0. -/
theorem c8_amended_thm :
    (∀ b : Bytes, (parseJettonContent b).2.2 = 9) ∧
    (∀ b : Bytes, indexOfSub b (strBytes ("name")) = none →
      (parseJettonContent b).1 = []) ∧
    (∀ b : Bytes, indexOfSub b (strBytes ("symbol")) = none →
      (parseJettonContent b).2.1 = []) ∧
    (∀ res : List Bytes, ¬ res.length < 4 →
      ((res.getD 3 []).length ≠ 0 →
        jdDecimals (verifyJettonInterface (some res)) = 9) ∧
      ((res.getD 3 []).length = 0 →
        jdDecimals (verifyJettonInterface (some res)) = 0)) := by
  refine ⟨parseJettonContent_decimals, ?_, ?_, ?_⟩
  · intro b h
    unfold parseJettonContent
    by_cases h0 : b.length = 0 <;> simp [h0, h]
  · intro b h
    unfold parseJettonContent
    by_cases h0 : b.length = 0 <;> simp [h0, h]
  · intro res hlen
    have hgt : 3 < res.length := by omega
    constructor
    · intro h3
      have hpos : 0 < (res.getD 3 []).length := Nat.pos_of_ne_zero h3
      have he : res.getD 3 [] = res[3] := List.getD_eq_getElem res [] hgt
      rw [he] at hpos
      simp [verifyJettonInterface, jdDecimals, hlen, hgt, hpos,
        parseJettonContent_decimals]
    · intro h3
      have he : res.getD 3 [] = res[3] := List.getD_eq_getElem res [] hgt
      rw [he] at h3
      simp [verifyJettonInterface, jdDecimals, hlen, h3]
      intro _
      simp [List.getElem?_eq_getElem hgt, h3]

/-- C8 witness: a non-empty content cell yields decimals 9, an empty one
yields 0, and the parser default path yields 9. -/
theorem c8_amended_witness :
    (parseJettonContent (strBytes ("x"))).2.2 = 9 ∧
    jdDecimals (verifyJettonInterface (some [[1], [1], [1], [1]])) = 9 ∧
    jdDecimals (verifyJettonInterface (some [[1], [1], [1], []])) = 0 := by
  refine ⟨c8_amended_thm.1 (strBytes ("x")), ?_, ?_⟩
  · exact (c8_amended_thm.2.2.2 [[1], [1], [1], [1]] (by decide)).1 (by decide)
  · exact (c8_amended_thm.2.2.2 [[1], [1], [1], []] (by decide)).2 (by decide)

/-- Outcome of a RegisterSeqno call as seen by the handler: the Go pair
(isNew, err) built by redis_cache.go lines 60 to 79, in which every error
return carries isNew = false. -/
inductive RegResult where
  | regNew
  | regDup
  | regErr
deriving DecidableEq

/-- The isNew boolean RegisterSeqno returns for each outcome. -/
def regIsNew : RegResult → Bool
  | RegResult.regNew => true
  | RegResult.regDup => false
  | RegResult.regErr => false

/-- Outcome of an IsMinterKnown call: the Go pair (seen, err) built by
redis_cache.go lines 82 to 89, in which the error return carries
seen = false. -/
inductive KnownResult where
  | knSeen
  | knUnseen
  | knErr
deriving DecidableEq

/-- The seen boolean IsMinterKnown returns for each outcome. -/
def knSeenVal : KnownResult → Bool
  | KnownResult.knSeen => true
  | KnownResult.knUnseen => false
  | KnownResult.knErr => false

/-- Outcome of the detector call made by Handle. -/
inductive InspectOutcome where
  | inspOk
  | inspNotMinter
  | inspOtherErr
deriving DecidableEq

/-- The return point Handle reaches for one event. -/
inductive HandleStop where
  | notDeploy
  | dupSeqno
  | dupMinter
  | noCodeHash
  | notMinter
  | inspectFailed
  | processed
deriving DecidableEq

/-- The event fields Handle reads. -/
structure HandleEvent where
  isDeploy : Bool
  seqno : Nat
  accountAddress : Bytes
  codeHash : Bytes
deriving DecidableEq

/-- Handle (processor.go lines 32 to 95): skip non-deploys; when a cache is
configured and the seqno is positive, call RegisterSeqno — an error is only
logged as a warning, after which the accompanying isNew = false takes the
duplicate return; then IsMinterKnown — an error is only logged, after which
seen = false falls through; then the code-hash fallback (drop on failure);
then the detector call (sentinel and other errors both return); a successful
path ends after RememberMinter, whose error is also only logged. -/
def processorHandle (cachePresent : Bool) (reg : RegResult)
    (known : KnownResult) (getCode : Option Bytes)
    (insp : InspectOutcome) (e : HandleEvent) : HandleStop :=
  if e.isDeploy = false then HandleStop.notDeploy
  else if cachePresent ∧ 0 < e.seqno ∧ regIsNew reg = false then
    HandleStop.dupSeqno
  else if cachePresent ∧ knSeenVal known = true then HandleStop.dupMinter
  else
    let codeHashRes : Option Bytes :=
      if e.codeHash = [] then getCode else some e.codeHash
    match codeHashRes with
    | none => HandleStop.noCodeHash
    | some _ =>
      match insp with
      | InspectOutcome.inspNotMinter => HandleStop.notMinter
      | InspectOutcome.inspOtherErr => HandleStop.inspectFailed
      | InspectOutcome.inspOk => HandleStop.processed

/-- Whether a Handle return point lies at or beyond the detector
verification call. -/
def reachedInspect : HandleStop → Bool
  | HandleStop.notMinter => true
  | HandleStop.inspectFailed => true
  | HandleStop.processed => true
  | _ => false

/-- The deploy event used in the C3 scenarios. -/
def e3 : HandleEvent :=
  { isDeploy := true, seqno := 1,
    accountAddress := strBytes ("0:ab"), codeHash := strBytes ("ff") }

/-- C3 counterexample: a transient RegisterSeqno error alone (everything
else healthy) makes Handle drop the deploy event as a duplicate before any
verification, because the error return of RegisterSeqno carries
isNew = false. -/
theorem c3_counterexample :
    processorHandle true RegResult.regErr KnownResult.knUnseen none
      InspectOutcome.inspOk e3 = HandleStop.dupSeqno ∧
    reachedInspect HandleStop.dupSeqno = false := by
  exact ⟨rfl, rfl⟩

/-- C3 (amended): a transient IsMinterKnown error degrades to a cache miss
(the handler behaves exactly as if the address were absent), but a transient
RegisterSeqno error — despite being logged only as a warning — drops the
event before verification, because the accompanying isNew = false is taken
for a duplicate seqno. -/
theorem c3_amended_thm (known : KnownResult) (getCode : Option Bytes)
    (insp : InspectOutcome) (e : HandleEvent) (hdep : e.isDeploy = true)
    (hseq : 0 < e.seqno) :
    processorHandle true RegResult.regErr known getCode insp e =
      HandleStop.dupSeqno ∧
    (∀ reg, processorHandle true reg KnownResult.knErr getCode insp e =
      processorHandle true reg KnownResult.knUnseen getCode insp e) := by
  constructor
  · simp [processorHandle, regIsNew, hdep, hseq]
  · intro reg
    simp [processorHandle, knSeenVal]

/-- C3 witness: the amended behaviour at the concrete deploy event. -/
theorem c3_amended_witness :
    processorHandle true RegResult.regErr KnownResult.knSeen none
      InspectOutcome.inspOk e3 = HandleStop.dupSeqno ∧
    processorHandle true RegResult.regNew KnownResult.knErr none
      InspectOutcome.inspOk e3 =
      processorHandle true RegResult.regNew KnownResult.knUnseen none
        InspectOutcome.inspOk e3 := by
  have h := c3_amended_thm KnownResult.knSeen none InspectOutcome.inspOk e3
    (by decide) (by decide)
  have h2 := c3_amended_thm KnownResult.knErr none InspectOutcome.inspOk e3
    (by decide) (by decide)
  exact ⟨h.1, h2.2 RegResult.regNew⟩

/-- The Event record built in processShard (client.go lines 325 to 337):
timestampUnix is tx.Now (time.Unix(int64(txList.Now), 0)) and blockUnixtime
is the wall clock read at the start of the shard pass (line 302,
time.Now().Unix()), not a block header time. -/
structure EventL where
  accountAddress : Bytes
  codeHash : Bytes
  timestampUnix : Nat
  seqno : Nat
  workchain : Int
  shard : Nat
  txLT : Nat
  isDeploy : Bool
  blockUnixtime : Int
deriving DecidableEq

/-- Event construction in processShard for one deploy transaction; acct is
the already formatted workchain:hex address string. -/
def mkShardEvent (workchain : Int) (shard : Nat) (acct : Bytes) (lt : Nat)
    (txNow : Nat) (codeHash : Bytes) (mcSeqno : Nat)
    (shardWallClock : Int) : EventL :=
  { accountAddress := acct, codeHash := codeHash, timestampUnix := txNow,
    seqno := mcSeqno, workchain := workchain, shard := shard, txLT := lt,
    isDeploy := true, blockUnixtime := shardWallClock }

/-- The latency the extended processor Handle stores into the metadata
(part_004 lines 98 to 100): time.Since(event.Timestamp) in milliseconds,
with the handling wall clock passed explicitly in milliseconds. -/
def handleLatencyMs (handleNowMs : Int) (ev : EventL) : Int :=
  handleNowMs - (ev.timestampUnix : Int) * 1000

/-- The meta object of the webhook payload. -/
structure MetaInfoL where
  blockUnixtime : Int
  indexerUnixtime : Int
  latencyMs : Int
  minterType : Bytes
deriving DecidableEq

/-- Meta construction in webhookExtended (part_003 lines 281 to 301):
indexer_unixtime is the wall clock at send time, latency_ms copies the
metadata DetectionLatencyMs, and block_unixtime copies event.BlockUnixtime
when an event is attached (the zero value otherwise). -/
def webhookMetaInfo (notifyNowUnix : Int) (detectionLatencyMs : Int)
    (minterType : Bytes) (ev : Option EventL) : MetaInfoL :=
  let base : MetaInfoL :=
    { blockUnixtime := 0, indexerUnixtime := notifyNowUnix,
      latencyMs := detectionLatencyMs, minterType := minterType }
  match ev with
  | some e => { base with blockUnixtime := e.blockUnixtime }
  | none => base

/-- End-to-end meta of one discovery event: processShard builds the event at
wall-clock second tShard for a transaction whose unix time is txNow, Handle
computes the latency at wall-clock millisecond tHandleMs, and the webhook is
sent at wall-clock second tNotify. -/
def pipelineMeta (txNow : Nat) (tShard : Int) (tHandleMs : Int)
    (tNotify : Int) (minterType : Bytes) : MetaInfoL :=
  let ev := mkShardEvent 0 0 [] 0 txNow [] 0 tShard
  webhookMetaInfo tNotify (handleLatencyMs tHandleMs ev) minterType (some ev)

/-- C5 counterexample: a transaction 100 seconds old at processing time
gives latency_ms = 100000 while indexer_unixtime and block_unixtime are both
the processing wall clock, so their scaled difference is 0 — off by far more
than rounding. -/
theorem c5_counterexample :
    (pipelineMeta 0 100 100000 100 []).latencyMs = 100000 ∧
    (pipelineMeta 0 100 100000 100 []).indexerUnixtime * 1000 -
      (pipelineMeta 0 100 100000 100 []).blockUnixtime * 1000 = 0 ∧
    ¬ ((pipelineMeta 0 100 100000 100 []).latencyMs -
        ((pipelineMeta 0 100 100000 100 []).indexerUnixtime * 1000 -
          (pipelineMeta 0 100 100000 100 []).blockUnixtime * 1000)).natAbs ≤ 1000 := by
  exact ⟨rfl, rfl, by decide⟩

/-- C5 (amended): in every delivered payload, meta.latency_ms equals the
handling wall clock in milliseconds minus the transaction unix time times
1000, meta.block_unixtime is the wall clock read when the shard was
processed (not the time of the block containing the deploy), and
meta.indexer_unixtime is the wall clock at webhook send time. -/
theorem c5_amended_thm (txNow : Nat) (tShard tHandleMs tNotify : Int)
    (minterType : Bytes) :
    (pipelineMeta txNow tShard tHandleMs tNotify minterType).latencyMs =
      tHandleMs - (txNow : Int) * 1000 ∧
    (pipelineMeta txNow tShard tHandleMs tNotify minterType).blockUnixtime =
      tShard ∧
    (pipelineMeta txNow tShard tHandleMs tNotify minterType).indexerUnixtime =
      tNotify := by
  exact ⟨rfl, rfl, rfl⟩
